import Mathlib

/-!
Shallow embedding of `packetcrypt-blkmine/src/ann_class.rs` (the announcement
classification and buffer lifecycle manager of packetcrypt-rs) together with
theorems checking the natural-language specification against it.

Modelling conventions:
* The external collaborators (the announcement buffer `AnnBuf`, the shared
  proof tree `ProofTree`, and the degradation function) are code of this
  repository that is not among the given sources; they are modelled from the
  specification and marked as such in their doc comments.
* Announcement records are identified by their `u32` indexes, so a buffer
  holds a list of naturals.
* Stateful Rust methods become pure functions that take and return the state.
  The `Arc<Mutex<ProofTree>>` origin of a dependent hash-tree link is
  modelled inline in the link (aliasing between distinct links is not
  modelled; each claim below concerns the per-link behaviour).
* `u32` heights are naturals; where `u32` overflow matters it is made
  explicit with `% 2^32` (the addition in the age guard) or with an `Option`
  result (the unchecked subtraction, which panics on underflow in a debug
  build and has no meaningful value in any build).
-/

namespace PacketCrypt

/-- Modelled from the spec: the external fixed-capacity Announcement Buffer
(the repository file `ann_buf.rs` is not among the given sources). A buffer
holds announcement records, identified here by their indexes, has a fixed
capacity, and can be locked (frozen): a locked buffer accepts no further
writes, and `fill_count` is the number of records held. -/
structure AnnBuf where
  capacity : Nat
  anns : List Nat
  locked : Bool
deriving DecidableEq

/-- Modelled from the spec: appending a batch to a buffer consumes records
from the front of the batch until the buffer is full, and reports how many
were consumed; a locked buffer consumes nothing. -/
def AnnBuf.push_anns (b : AnnBuf) (indexes : List Nat) : AnnBuf × Nat :=
  if b.locked then (b, 0)
  else
    let consumed := min (b.capacity - b.anns.length) indexes.length
    ({ b with anns := b.anns ++ indexes.take consumed }, consumed)

/-- Modelled from the spec: freezing a buffer marks it immutable. -/
def AnnBuf.lock (b : AnnBuf) : AnnBuf :=
  { b with locked := true }

/-- Modelled from the spec: the fill count of a buffer (the Rust side calls
it `next_ann_index`). -/
def AnnBuf.next_ann_index (b : AnnBuf) : Nat :=
  b.anns.length

/-- Modelled from the spec: the externally shared proof structure, observed
here only through its current root hash and its reset operation. -/
structure ProofTree where
  root_hash : Option Nat
deriving DecidableEq

/-- Modelled from the spec: resetting a proof structure returns it to its
empty state. -/
def ProofTree.reset (_ : ProofTree) : ProofTree :=
  { root_hash := none }

/-- A dependent hash-tree link: `HashTree` from `ann_class.rs`. The shared
`origin` proof structure is modelled inline. -/
structure HashTree where
  origin : ProofTree
  root_hash : Option Nat
deriving DecidableEq

/-- `HashTree::invalidate` from `ann_class.rs`: return early when no root
was captured; otherwise reset the origin proof tree exactly when its current
root still equals the captured root, and clear the captured root. -/
def HashTree.invalidate (t : HashTree) : HashTree :=
  if t.root_hash = none then t
  else if t.origin.root_hash = t.root_hash then
    { origin := t.origin.reset, root_hash := none }
  else
    { t with root_hash := none }

/-- `AnnClassMut` from `ann_class.rs`: the lock-protected mutable core of a
class — frozen buffers, the active (top) buffer, the dependent hash-tree
links, and the mining flag. -/
structure AnnClassMut where
  bufs : List AnnBuf
  topbuf : Option AnnBuf
  dependent_trees : List HashTree
  mining : Bool
deriving DecidableEq

/-- `AnnClass` from `ann_class.rs`: the mutable core plus the immutable
classification parameters. -/
structure AnnClass where
  m : AnnClassMut
  block_hash : Nat
  block_height : Nat
  min_ann_work : Nat
  id : Nat
deriving DecidableEq

/-- The read-lock phase of `AnnClass::push_anns`: if an active buffer is
present, append as much of the batch as fits, accumulate the consumed count,
and report whether the batch was finished (in the source: `return` when
`consumed == indexes.len()`, else `indexes = &indexes[consumed..]`). -/
def pushReadPhase (m : AnnClassMut) (indexes : List Nat) (total : Nat) :
    AnnClassMut × List Nat × Nat × Bool :=
  match m.topbuf with
  | some tb =>
    let r := tb.push_anns indexes
    ({ m with topbuf := some r.1 }, indexes.drop r.2, total + r.2,
      r.2 == indexes.length)
  | none => (m, indexes, total, false)

/-- The write-lock double-check of `AnnClass::push_anns`: the same append is
re-attempted under the exclusive lock before rotating, but the state and the
count are only touched when `consumed > 0`. -/
def pushWritePhase (m : AnnClassMut) (indexes : List Nat) (total : Nat) :
    AnnClassMut × List Nat × Nat × Bool :=
  match m.topbuf with
  | some tb =>
    let r := tb.push_anns indexes
    if 0 < r.2 then
      ({ m with topbuf := some r.1 }, indexes.drop r.2, total + r.2,
        r.2 == indexes.length)
    else (m, indexes, total, false)
  | none => (m, indexes, total, false)

/-- `AnnClass::push_anns` from `ann_class.rs`, sequential semantics. The
source is a loop, but the caller supplies exactly one replacement buffer and
the loop takes it (`maybe_buf.take()`) in its first iteration, so executed
sequentially the loop runs at most twice: iteration one is the read-lock
append, the write-lock double-check and the rotation (the displaced top
buffer is locked and appended to the frozen collection); iteration two is
the read-lock append into the just-installed replacement, after which the
`maybe_buf.take()` failure returns `(total_consumed, None)` whether or not
the batch was finished. -/
def AnnClass.push_anns (c : AnnClass) (indexes : List Nat) (buf : AnnBuf) :
    AnnClass × Nat × Option AnnBuf :=
  match pushReadPhase c.m indexes 0 with
  | (m1, idx1, tot1, done1) =>
    if done1 then ({ c with m := m1 }, tot1, some buf)
    else
      match pushWritePhase m1 idx1 tot1 with
      | (m2, idx2, tot2, done2) =>
        if done2 then ({ c with m := m2 }, tot2, some buf)
        else
          let m3 :=
            match m2.topbuf with
            | some ot =>
              { m2 with topbuf := some buf, bufs := m2.bufs ++ [ot.lock] }
            | none => { m2 with topbuf := some buf }
          match pushReadPhase m3 idx2 tot2 with
          | (m4, _, tot4, _) => ({ c with m := m4 }, tot4, none)

/-- `AnnClass::is_dead` from `ann_class.rs`. -/
def AnnClass.is_dead (c : AnnClass) : Bool :=
  (c.m.bufs.length == 0) && c.m.topbuf.isNone

/-- `AnnClass::steal_buf` from `ann_class.rs`. Besides the `Result` and the
updated class, the model returns the post-invalidation states of the
dependent links as a third component: in the source those shared proof
structures outlive the cleared link list through their `Arc`s, so the side
effect of the invalidation sweep stays observable. -/
def AnnClass.steal_buf (c : AnnClass) :
    Except Unit (Option AnnBuf) × AnnClass × List HashTree :=
  if c.m.mining then (.error (), c, [])
  else if c.m.bufs.isEmpty then
    (.ok c.m.topbuf, { c with m := { c.m with topbuf := none } }, [])
  else
    (.ok c.m.bufs.getLast?,
      { c with m :=
        { c.m with bufs := c.m.bufs.dropLast, dependent_trees := [] } },
      c.m.dependent_trees.map HashTree.invalidate)

/-- `AnnClass::ready_anns` from `ann_class.rs`: total fill count over the
frozen buffers only. -/
def AnnClass.ready_anns (c : AnnClass) : Nat :=
  (c.m.bufs.map AnnBuf.next_ann_index).sum

/-- `AnnClass::ready_anns_bufs` from `ann_class.rs`. -/
def AnnClass.ready_anns_bufs (c : AnnClass) : Nat × Nat :=
  ((c.m.bufs.map AnnBuf.next_ann_index).sum, c.m.bufs.length)

/-- The `u32` modulus. -/
def U32MOD : Nat := 4294967296

/-- `AnnClass::ann_effective_work` from `ann_class.rs`, with the `u32`
arithmetic explicit: the `block_height + 3` in the age guard wraps modulo
`2^32`, and the unchecked `next_block_height - block_height` in the
degradation branch is `none` on underflow (a panic in a debug build). The
external degradation function is an opaque parameter. -/
def AnnClass.ann_effective_work (c : AnnClass) (degrade : Nat → Nat → Nat)
    (next_block_height : Nat) : Option Nat :=
  if (c.block_height + 3) % U32MOD < next_block_height then
    some c.min_ann_work
  else if c.block_height ≤ next_block_height then
    some (degrade c.min_ann_work (next_block_height - c.block_height))
  else none

/-! Concrete fixtures used by the scenario theorems and the witnesses. -/

/-- An empty unlocked buffer of capacity 4: the active buffer of the
ingestion scenario. -/
def scenarioTopBuf : AnnBuf := { capacity := 4, anns := [], locked := false }

/-- An empty unlocked buffer of capacity 4: the replacement buffer of the
ingestion scenario. -/
def scenarioSpareBuf : AnnBuf := { capacity := 4, anns := [], locked := false }

/-- A class with one empty active buffer of capacity 4 and no frozen
buffers. -/
def scenarioPushClass : AnnClass :=
  { m := { bufs := [], topbuf := some scenarioTopBuf, dependent_trees := [],
           mining := false },
    block_hash := 0, block_height := 100, min_ann_work := 7, id := 0 }

/-- A frozen buffer with fill count 3. -/
def stealBuf3 : AnnBuf := { capacity := 3, anns := [10, 11, 12], locked := true }

/-- A frozen buffer with fill count 5. -/
def stealBuf5 : AnnBuf :=
  { capacity := 5, anns := [20, 21, 22, 23, 24], locked := true }

/-- A class with two frozen buffers of fill counts 3 and 5 (inserted in that
order), one dependent link whose captured root matches its proof structure,
and the mining flag clear. -/
def stealClass : AnnClass :=
  { m := { bufs := [stealBuf3, stealBuf5], topbuf := none,
           dependent_trees := [{ origin := { root_hash := some 9 },
                                 root_hash := some 9 }],
           mining := false },
    block_hash := 0, block_height := 100, min_ann_work := 7, id := 1 }

/-- A class whose mining flag is set. -/
def miningClass : AnnClass :=
  { m := { bufs := [stealBuf3], topbuf := some scenarioTopBuf,
           dependent_trees := [{ origin := { root_hash := some 9 },
                                 root_hash := some 9 }],
           mining := true },
    block_hash := 0, block_height := 100, min_ann_work := 7, id := 2 }

/-- A class with no frozen buffers, a partially filled active buffer, one
dependent link and the mining flag clear. -/
def activeOnlyClass : AnnClass :=
  { m := { bufs := [], topbuf := some { capacity := 4, anns := [1, 2],
                                        locked := false },
           dependent_trees := [{ origin := { root_hash := some 9 },
                                 root_hash := some 9 }],
           mining := false },
    block_hash := 0, block_height := 100, min_ann_work := 7, id := 3 }

/-- A dependent link whose captured root matches the current root of its
proof structure. -/
def linkMatched : HashTree :=
  { origin := { root_hash := some 3 }, root_hash := some 3 }

/-- A class used to exercise the work-degradation policy. -/
def effClass : AnnClass :=
  { m := { bufs := [], topbuf := none, dependent_trees := [], mining := false },
    block_hash := 0, block_height := 10, min_ann_work := 99, id := 4 }

/-- A concrete stand-in for the external degradation function, used only in
witnesses; the theorems quantify over every such function. -/
def demoDegrade (w a : Nat) : Nat := w * 100 + a

/-- A class whose active buffer (capacity 1) is already full. -/
def exhaustClass : AnnClass :=
  { m := { bufs := [], topbuf := some { capacity := 1, anns := [0],
                                        locked := false },
           dependent_trees := [], mining := false },
    block_hash := 0, block_height := 100, min_ann_work := 7, id := 5 }

/-- A replacement buffer of capacity 1. -/
def exhaustSpare : AnnBuf := { capacity := 1, anns := [], locked := false }

/-- A dead class: no frozen buffers and no active buffer. -/
def deadClass : AnnClass :=
  { m := { bufs := [], topbuf := none, dependent_trees := [], mining := false },
    block_hash := 0, block_height := 100, min_ann_work := 7, id := 6 }

/-- An empty unlocked buffer of capacity 4 used to revive the dead class. -/
def reviveSpare : AnnBuf := { capacity := 4, anns := [], locked := false }

/-! Helper lemmas shared by the claim theorems. -/

/-- A buffer append never consumes more records than the batch holds. -/
theorem AnnBuf.push_anns_consumed_le (b : AnnBuf) (indexes : List Nat) :
    (b.push_anns indexes).2 ≤ indexes.length := by
  unfold AnnBuf.push_anns
  split
  · exact Nat.zero_le _
  · exact Nat.min_le_right _ _

/-- Invalidation always leaves the link with no captured root. -/
theorem HashTree.invalidate_root (t : HashTree) :
    t.invalidate.root_hash = none := by
  unfold HashTree.invalidate
  split
  · assumption
  · split <;> rfl

/-- Invalidating a link that holds no captured root changes nothing. -/
theorem HashTree.invalidate_of_none (t : HashTree) (h : t.root_hash = none) :
    t.invalidate = t := by
  unfold HashTree.invalidate
  rw [if_pos h]

/-- On a class with no active buffer the read-lock phase does nothing. -/
theorem pushReadPhase_none (m : AnnClassMut) (indexes : List Nat) (total : Nat)
    (h : m.topbuf = none) :
    pushReadPhase m indexes total = (m, indexes, total, false) := by
  unfold pushReadPhase
  rw [h]

/-- On a class with no active buffer the write-lock double-check does
nothing. -/
theorem pushWritePhase_none (m : AnnClassMut) (indexes : List Nat) (total : Nat)
    (h : m.topbuf = none) :
    pushWritePhase m indexes total = (m, indexes, total, false) := by
  unfold pushWritePhase
  rw [h]

/-- The read-lock phase preserves the sum of the consumed total and the
remaining batch length, and never decreases the total. -/
theorem pushReadPhase_inv (m : AnnClassMut) (indexes : List Nat) (total : Nat) :
    (pushReadPhase m indexes total).2.2.1 +
      (pushReadPhase m indexes total).2.1.length = total + indexes.length ∧
    total ≤ (pushReadPhase m indexes total).2.2.1 := by
  unfold pushReadPhase
  cases m.topbuf with
  | none => exact ⟨rfl, Nat.le_refl _⟩
  | some tb =>
    have h := tb.push_anns_consumed_le indexes
    simp only [List.length_drop]
    omega

/-- When the read-lock phase reports the batch finished, nothing remains. -/
theorem pushReadPhase_done (m : AnnClassMut) (indexes : List Nat) (total : Nat) :
    (pushReadPhase m indexes total).2.2.2 = true →
    (pushReadPhase m indexes total).2.1.length = 0 := by
  unfold pushReadPhase
  cases m.topbuf with
  | none => intro h; cases h
  | some tb =>
    intro h
    have h2 : (tb.push_anns indexes).2 = indexes.length := by
      simpa using h
    simp [List.length_drop, h2]

/-- The write-lock double-check preserves the sum of the consumed total and
the remaining batch length, and never decreases the total. -/
theorem pushWritePhase_inv (m : AnnClassMut) (indexes : List Nat) (total : Nat) :
    (pushWritePhase m indexes total).2.2.1 +
      (pushWritePhase m indexes total).2.1.length = total + indexes.length ∧
    total ≤ (pushWritePhase m indexes total).2.2.1 := by
  unfold pushWritePhase
  cases m.topbuf with
  | none => exact ⟨rfl, Nat.le_refl _⟩
  | some tb =>
    have h := tb.push_anns_consumed_le indexes
    dsimp only
    split
    · simp only [List.length_drop]
      omega
    · exact ⟨rfl, Nat.le_refl _⟩

/-- When the write-lock double-check reports the batch finished, nothing
remains. -/
theorem pushWritePhase_done (m : AnnClassMut) (indexes : List Nat) (total : Nat) :
    (pushWritePhase m indexes total).2.2.2 = true →
    (pushWritePhase m indexes total).2.1.length = 0 := by
  unfold pushWritePhase
  cases m.topbuf with
  | none => intro h; cases h
  | some tb =>
    dsimp only
    split
    · intro h
      have h2 : (tb.push_anns indexes).2 = indexes.length := by
        simpa using h
      simp [List.length_drop, h2]
    · intro h; cases h

/-! The claim theorems. -/

/-- C1: for every class whose frozen-buffer collection is non-empty and
whose mining flag is clear, `steal_buf` invalidates every dependent link
(each emerges with its captured root cleared), clears the dependent-link
set, keeps the active buffer, and removes and returns the most recently
frozen (last-in) buffer, so the remaining ready count is the sum over the
earlier frozen buffers. -/
theorem steal_buf_frozen (c : AnnClass) (l : List AnnBuf) (b : AnnBuf)
    (hm : c.m.mining = false) (hb : c.m.bufs = l ++ [b]) :
    c.steal_buf.1 = .ok (some b) ∧
    c.steal_buf.2.1.m.bufs = l ∧
    c.steal_buf.2.1.m.topbuf = c.m.topbuf ∧
    c.steal_buf.2.1.m.dependent_trees = [] ∧
    c.steal_buf.2.2 = c.m.dependent_trees.map HashTree.invalidate ∧
    (∀ t ∈ c.steal_buf.2.2, t.root_hash = none) ∧
    c.steal_buf.2.1.ready_anns = (l.map AnnBuf.next_ann_index).sum := by
  have hne : (l ++ [b]).isEmpty = false := by cases l <;> rfl
  have hmain : c.steal_buf =
      (.ok (some b),
        { c with m := { c.m with bufs := l, dependent_trees := [] } },
        c.m.dependent_trees.map HashTree.invalidate) := by
    unfold AnnClass.steal_buf
    rw [if_neg (by simp [hm]), if_neg (by rw [hb, hne]; exact Bool.false_ne_true),
      hb, List.getLast?_concat, List.dropLast_concat]
  rw [hmain]
  refine ⟨rfl, rfl, rfl, rfl, rfl, ?_, rfl⟩
  intro t ht
  rw [List.mem_map] at ht
  obtain ⟨t0, _, rfl⟩ := ht
  exact t0.invalidate_root

/-- C1 witness: the scenario class with frozen fill counts 3 and 5.
Stealing returns the fill-count-5 buffer, the ready count afterward is 3,
the link set is cleared and the matching dependent link was invalidated
(its proof structure reset, its captured root cleared). -/
theorem steal_buf_frozen_witness :
    stealClass.m.mining = false ∧
    stealClass.m.bufs = [stealBuf3] ++ [stealBuf5] ∧
    stealClass.steal_buf.1 = .ok (some stealBuf5) ∧
    stealClass.steal_buf.2.1.ready_anns = 3 ∧
    stealClass.steal_buf.2.1.m.dependent_trees = [] ∧
    stealClass.steal_buf.2.2 =
      [{ origin := { root_hash := none }, root_hash := none }] :=
  ⟨rfl, rfl, (steal_buf_frozen stealClass [stealBuf3] stealBuf5 rfl rfl).1,
    rfl, rfl, rfl⟩

/-- C3: for every class whose mining flag is set, `steal_buf` fails with
the exclusivity error, leaves the class unchanged and performs no
invalidation; the error is distinct from the nothing-to-steal outcome
`Ok(None)`. -/
theorem steal_buf_mining_err (c : AnnClass) (hm : c.m.mining = true) :
    c.steal_buf = (.error (), c, []) ∧
    (Except.error () : Except Unit (Option AnnBuf)) ≠ .ok none := by
  constructor
  · unfold AnnClass.steal_buf
    rw [if_pos hm]
  · intro h; cases h

/-- C3 witness: the mining-flagged fixture class fails with the exclusivity
error and is left untouched. -/
theorem steal_buf_mining_err_witness :
    miningClass.m.mining = true ∧
    miningClass.steal_buf = (.error (), miningClass, []) :=
  ⟨rfl, (steal_buf_mining_err miningClass rfl).1⟩

/-- C6: for every class with the mining flag clear and no frozen buffers,
`steal_buf` takes and returns the active buffer, leaving neither active nor
frozen buffers, so the class is dead afterward; in this branch the
dependent links are neither invalidated nor cleared. -/
theorem steal_buf_active (c : AnnClass) (hm : c.m.mining = false)
    (hb : c.m.bufs = []) :
    c.steal_buf =
      (.ok c.m.topbuf, { c with m := { c.m with topbuf := none } }, []) ∧
    c.steal_buf.2.1.is_dead = true ∧
    c.steal_buf.2.1.m.dependent_trees = c.m.dependent_trees := by
  have h1 : c.steal_buf =
      (.ok c.m.topbuf, { c with m := { c.m with topbuf := none } }, []) := by
    unfold AnnClass.steal_buf
    rw [if_neg (by simp [hm]), if_pos (by rw [hb]; rfl)]
  refine ⟨h1, ?_, by rw [h1]⟩
  rw [h1]
  simp [AnnClass.is_dead, hb]

/-- C6 witness: a class with only a partially filled active buffer hands it
over, becomes dead, and keeps its dependent link untouched. -/
theorem steal_buf_active_witness :
    activeOnlyClass.m.mining = false ∧
    activeOnlyClass.m.bufs = [] ∧
    activeOnlyClass.steal_buf =
      (.ok activeOnlyClass.m.topbuf,
        { activeOnlyClass with m :=
          { activeOnlyClass.m with topbuf := none } }, []) ∧
    activeOnlyClass.steal_buf.2.1.is_dead = true ∧
    activeOnlyClass.steal_buf.2.1.m.dependent_trees =
      activeOnlyClass.m.dependent_trees :=
  ⟨rfl, rfl, (steal_buf_active activeOnlyClass rfl rfl).1,
    (steal_buf_active activeOnlyClass rfl rfl).2.1,
    (steal_buf_active activeOnlyClass rfl rfl).2.2⟩

/-- C5: dependent-link invalidation is idempotent. A link that never
captured a root is left untouched; otherwise the proof structure is reset
exactly when its current root equals the captured root (a non-matching root
leaves it untouched), the captured root is cleared afterward, and a second
invalidation of the same link is always a no-op. -/
theorem hashTree_invalidate_idem (t : HashTree) :
    (t.root_hash = none → t.invalidate = t) ∧
    (∀ x, t.root_hash = some x →
      t.invalidate.origin =
        (if t.origin.root_hash = some x then t.origin.reset else t.origin)) ∧
    t.invalidate.root_hash = none ∧
    t.invalidate.invalidate = t.invalidate := by
  refine ⟨t.invalidate_of_none, ?_, t.invalidate_root,
    HashTree.invalidate_of_none _ t.invalidate_root⟩
  intro x hx
  unfold HashTree.invalidate
  rw [hx, if_neg (by intro h; cases h)]
  split <;> rfl

/-- C5 witness: a link whose captured root matches its proof structure is
reset and cleared by the first invalidation, and the second invalidation is
a no-op. -/
theorem hashTree_invalidate_idem_witness :
    linkMatched.root_hash = some 3 ∧
    linkMatched.invalidate.origin =
      (if linkMatched.origin.root_hash = some 3 then linkMatched.origin.reset
       else linkMatched.origin) ∧
    linkMatched.invalidate.root_hash = none ∧
    linkMatched.invalidate.invalidate = linkMatched.invalidate :=
  ⟨rfl, (hashTree_invalidate_idem linkMatched).2.1 3 rfl,
    (hashTree_invalidate_idem linkMatched).2.2.1,
    (hashTree_invalidate_idem linkMatched).2.2.2⟩

/-- C2: the ingestion scenario. A class with one empty active buffer of
capacity 4 and no frozen buffers absorbs a batch of 6 records given one
replacement buffer: all 6 are consumed, no replacement buffer is left over,
the first 4 records sit in the rotated-out buffer which is frozen and placed
in the frozen collection, the remaining 2 sit in the replacement buffer now
active, and the ready count afterward is 4. -/
theorem push_anns_rotation_scenario :
    scenarioPushClass.push_anns [1, 2, 3, 4, 5, 6] scenarioSpareBuf =
      ({ scenarioPushClass with m :=
          { bufs := [{ capacity := 4, anns := [1, 2, 3, 4], locked := true }],
            topbuf := some { capacity := 4, anns := [5, 6], locked := false },
            dependent_trees := [], mining := false } },
        6, none) ∧
    (scenarioPushClass.push_anns [1, 2, 3, 4, 5, 6] scenarioSpareBuf).2.1 = 6 ∧
    (scenarioPushClass.push_anns [1, 2, 3, 4, 5, 6] scenarioSpareBuf).2.2 =
      none ∧
    (scenarioPushClass.push_anns
      [1, 2, 3, 4, 5, 6] scenarioSpareBuf).1.ready_anns = 4 :=
  ⟨rfl, rfl, rfl, rfl⟩

/-- C4: inside the three-block age window (and for a well-defined
non-negative age) the effective work is the degraded base work, and past the
window it is exactly the undegraded base work. The hypothesis keeps the
`u32` age-guard addition from wrapping. -/
theorem ann_effective_work_window (c : AnnClass) (degrade : Nat → Nat → Nat)
    (h : Nat) (hbh : c.block_height + 3 < U32MOD) :
    (c.block_height + 3 < h →
      c.ann_effective_work degrade h = some c.min_ann_work) ∧
    (c.block_height ≤ h → h ≤ c.block_height + 3 →
      c.ann_effective_work degrade h =
        some (degrade c.min_ann_work (h - c.block_height))) := by
  unfold AnnClass.ann_effective_work
  rw [Nat.mod_eq_of_lt hbh]
  constructor
  · intro hgt
    rw [if_pos hgt]
  · intro hge hle
    rw [if_neg (by omega), if_pos hge]

/-- C4 witness: with base height 10, height 20 is past the window and
yields the base work, while height 12 is inside the window and yields the
degraded value at age 2. -/
theorem ann_effective_work_window_witness :
    effClass.block_height + 3 < U32MOD ∧
    effClass.block_height + 3 < 20 ∧
    effClass.ann_effective_work demoDegrade 20 = some effClass.min_ann_work ∧
    effClass.block_height ≤ 12 ∧ 12 ≤ effClass.block_height + 3 ∧
    effClass.ann_effective_work demoDegrade 12 =
      some (demoDegrade effClass.min_ann_work (12 - effClass.block_height)) :=
  ⟨by decide, by decide,
    (ann_effective_work_window effClass demoDegrade 20 (by decide)).1
      (by decide),
    by decide, by decide,
    (ann_effective_work_window effClass demoDegrade 12 (by decide)).2
      (by decide) (by decide)⟩

/-- C9: the degradation branch is well-defined only for non-negative age.
When the target height is below the class height (and the age-guard addition
does not wrap), the unchecked `u32` subtraction underflows, modelled as
`none`; when the target height is at least the class height the result is
always defined. -/
theorem ann_effective_work_totality (c : AnnClass) (degrade : Nat → Nat → Nat)
    (h : Nat) :
    (c.block_height + 3 < U32MOD → h < c.block_height →
      c.ann_effective_work degrade h = none) ∧
    (c.block_height ≤ h →
      (c.ann_effective_work degrade h).isSome = true) := by
  unfold AnnClass.ann_effective_work
  constructor
  · intro hbh hlt
    rw [Nat.mod_eq_of_lt hbh, if_neg (by omega), if_neg (by omega)]
  · intro hge
    rcases Nat.lt_or_ge ((c.block_height + 3) % U32MOD) h with hlt | hge2
    · rw [if_pos hlt]
      rfl
    · rw [if_neg (Nat.not_lt.2 hge2), if_pos hge]
      rfl

/-- C9 witness: with class height 10, target height 5 underflows the age
subtraction and has no defined result, while target height 12 is defined. -/
theorem ann_effective_work_totality_witness :
    effClass.block_height + 3 < U32MOD ∧ 5 < effClass.block_height ∧
    effClass.ann_effective_work demoDegrade 5 = none ∧
    effClass.block_height ≤ 12 ∧
    (effClass.ann_effective_work demoDegrade 12).isSome = true :=
  ⟨by decide, by decide,
    (ann_effective_work_totality effClass demoDegrade 5).1 (by decide)
      (by decide),
    by decide,
    (ann_effective_work_totality effClass demoDegrade 12).2 (by decide)⟩

/-- C7: capacity exhaustion is reported as partial success. Ingestion never
reports more records than the batch holds, and whenever the batch is not
fully absorbed the replacement buffer was consumed by a rotation and no
leftover buffer is returned. -/
theorem push_anns_capacity (c : AnnClass) (indexes : List Nat) (buf : AnnBuf) :
    (c.push_anns indexes buf).2.1 ≤ indexes.length ∧
    ((c.push_anns indexes buf).2.1 < indexes.length →
      (c.push_anns indexes buf).2.2 = none) := by
  have h1 := pushReadPhase_inv c.m indexes 0
  have h1d := pushReadPhase_done c.m indexes 0
  unfold AnnClass.push_anns
  set r1 := pushReadPhase c.m indexes 0 with hr1
  obtain ⟨m1, idx1, tot1, done1⟩ := r1
  dsimp only at h1 h1d ⊢
  cases done1 with
  | true =>
    rw [if_pos rfl]
    have h0 := h1d rfl
    dsimp only
    exact ⟨by omega, fun hlt => absurd hlt (by omega)⟩
  | false =>
    rw [if_neg Bool.false_ne_true]
    have h2 := pushWritePhase_inv m1 idx1 tot1
    have h2d := pushWritePhase_done m1 idx1 tot1
    set r2 := pushWritePhase m1 idx1 tot1 with hr2
    obtain ⟨m2, idx2, tot2, done2⟩ := r2
    dsimp only at h2 h2d ⊢
    cases done2 with
    | true =>
      rw [if_pos rfl]
      have h0 := h2d rfl
      dsimp only
      exact ⟨by omega, fun hlt => absurd hlt (by omega)⟩
    | false =>
      rw [if_neg Bool.false_ne_true]
      cases hm : m2.topbuf with
      | some ot =>
        dsimp only
        have h3 := pushReadPhase_inv
          { bufs := m2.bufs ++ [ot.lock], topbuf := some buf,
            dependent_trees := m2.dependent_trees, mining := m2.mining }
          idx2 tot2
        set r3 := pushReadPhase
          { bufs := m2.bufs ++ [ot.lock], topbuf := some buf,
            dependent_trees := m2.dependent_trees, mining := m2.mining }
          idx2 tot2 with hr3
        obtain ⟨m4, idx4, tot4, done4⟩ := r3
        dsimp only at h3 ⊢
        exact ⟨by omega, fun _ => rfl⟩
      | none =>
        dsimp only
        have h3 := pushReadPhase_inv
          { bufs := m2.bufs, topbuf := some buf,
            dependent_trees := m2.dependent_trees, mining := m2.mining }
          idx2 tot2
        set r3 := pushReadPhase
          { bufs := m2.bufs, topbuf := some buf,
            dependent_trees := m2.dependent_trees, mining := m2.mining }
          idx2 tot2 with hr3
        obtain ⟨m4, idx4, tot4, done4⟩ := r3
        dsimp only at h3 ⊢
        exact ⟨by omega, fun _ => rfl⟩

/-- C7 witness: a full active buffer of capacity 1, one replacement buffer
of capacity 1 and a batch of 3 records: only 1 record is absorbed and no
leftover buffer comes back. -/
theorem push_anns_capacity_witness :
    (exhaustClass.push_anns [1, 2, 3] exhaustSpare).2.1 < 3 ∧
    (exhaustClass.push_anns [1, 2, 3] exhaustSpare).2.2 = none ∧
    (exhaustClass.push_anns [1, 2, 3] exhaustSpare).2.1 = 1 :=
  ⟨by decide,
    (push_anns_capacity exhaustClass [1, 2, 3] exhaustSpare).2 (by decide),
    rfl⟩

/-- C10: a dead class is revived by ingestion. Pushing a non-empty batch
with an unlocked replacement buffer that has room installs the replacement
as the new active buffer, consumes records into it, and makes `is_dead`
false; the replacement buffer is not returned. -/
theorem push_anns_revives (c : AnnClass) (indexes : List Nat) (buf : AnnBuf)
    (hdead : c.is_dead = true) (hne : indexes ≠ [])
    (hunlocked : buf.locked = false)
    (hroom : buf.anns.length < buf.capacity) :
    0 < (c.push_anns indexes buf).2.1 ∧
    (c.push_anns indexes buf).1.m.topbuf =
      some { buf with anns := buf.anns ++ indexes.take (min (buf.capacity - buf.anns.length) indexes.length) } ∧
    (c.push_anns indexes buf).1.is_dead = false ∧
    (c.push_anns indexes buf).2.2 = none := by
  have hb : c.m.bufs = [] := by
    have := hdead
    unfold AnnClass.is_dead at this
    rw [Bool.and_eq_true, beq_iff_eq, List.length_eq_zero] at this
    exact this.1
  have ht : c.m.topbuf = none := by
    have := hdead
    unfold AnnClass.is_dead at this
    rw [Bool.and_eq_true, Option.isNone_iff_eq_none] at this
    exact this.2
  have hlen : 0 < indexes.length := List.length_pos.2 hne
  have e1 : pushReadPhase c.m indexes 0 = (c.m, indexes, 0, false) :=
    pushReadPhase_none c.m indexes 0 ht
  have e2 : pushWritePhase c.m indexes 0 = (c.m, indexes, 0, false) :=
    pushWritePhase_none c.m indexes 0 ht
  have e3 : buf.push_anns indexes =
      ({ buf with anns := buf.anns ++ indexes.take (min (buf.capacity - buf.anns.length) indexes.length) },
        min (buf.capacity - buf.anns.length) indexes.length) := by
    unfold AnnBuf.push_anns
    rw [if_neg (by rw [hunlocked]; exact Bool.false_ne_true)]
  have e4 : pushReadPhase { c.m with topbuf := some buf } indexes 0 =
      ({ c.m with topbuf := some { buf with anns := buf.anns ++ indexes.take (min (buf.capacity - buf.anns.length) indexes.length) } },
        indexes.drop (min (buf.capacity - buf.anns.length) indexes.length),
        0 + min (buf.capacity - buf.anns.length) indexes.length,
        min (buf.capacity - buf.anns.length) indexes.length == indexes.length) := by
    unfold pushReadPhase
    dsimp only
    rw [e3]
  have emain : c.push_anns indexes buf =
      ({ c with m := { c.m with topbuf := some { buf with anns := buf.anns ++ indexes.take (min (buf.capacity - buf.anns.length) indexes.length) } } },
        0 + min (buf.capacity - buf.anns.length) indexes.length, none) := by
    unfold AnnClass.push_anns
    rw [e1]
    dsimp only
    rw [if_neg Bool.false_ne_true, e2]
    dsimp only
    rw [if_neg Bool.false_ne_true, ht]
    dsimp only
    rw [e4]
  rw [emain]
  refine ⟨?_, rfl, ?_, rfl⟩
  · have hmin : 0 < min (buf.capacity - buf.anns.length) indexes.length := by
      omega
    dsimp only
    omega
  · simp [AnnClass.is_dead]

/-- C10 witness: pushing two records into the dead fixture class with an
empty replacement buffer consumes both, installs the replacement as the
active buffer and leaves the class alive. -/
theorem push_anns_revives_witness :
    deadClass.is_dead = true ∧
    (deadClass.push_anns [9, 8] reviveSpare).2.1 = 2 ∧
    (deadClass.push_anns [9, 8] reviveSpare).1.m.topbuf =
      some { reviveSpare with anns := reviveSpare.anns ++ List.take (min (reviveSpare.capacity - reviveSpare.anns.length) (List.length [9, 8])) [9, 8] } ∧
    (deadClass.push_anns [9, 8] reviveSpare).1.is_dead = false ∧
    (deadClass.push_anns [9, 8] reviveSpare).2.2 = none :=
  ⟨rfl, rfl,
    (push_anns_revives deadClass [9, 8] reviveSpare rfl (by decide) rfl
      (by decide)).2.1,
    (push_anns_revives deadClass [9, 8] reviveSpare rfl (by decide) rfl
      (by decide)).2.2.1,
    (push_anns_revives deadClass [9, 8] reviveSpare rfl (by decide) rfl
      (by decide)).2.2.2⟩

end PacketCrypt
